import Mathlib

/-!
Verification of the multi-sensor scan pipeline of `ouster_example`
(python SDK): the `_Seekable` playback buffer (`ouster/sdk/viz.py`),
the pcap packet reader (`ouster/sdk/pcap/pcap_multi_packet_reader.py`)
and the indexed scan sources (`ouster/osf/multi.py`,
`ouster/sdkx/pcap_scan_source.py`), shallowly embedded in Lean.
-/

set_option autoImplicit false

namespace Ouster

/-! ## `_Seekable` (viz.py)

The underlying Python iterator is modelled as the list of items it has
yet to produce; the `deque` cache (appendleft, bounded by `maxlen`,
auto-evicting on the right) is a Lean list whose head is the leftmost
(most recent) element. -/

/-- State of `_Seekable`: `_next_ind`, `_read_ind`, `_maxlen`, `_cache`
and the remaining items of the wrapped iterator. -/
structure Seekable (α : Type) where
  next_ind : Int
  read_ind : Int
  maxlen : Nat
  cache : List α
  it : List α
  deriving Repr, DecidableEq

/-- Constructor `_Seekable.__init__(it, maxlen)`: `_next_ind = 0`, `_read_ind = -1`,
empty cache. -/
def Seekable.init {α : Type} (it : List α) (maxlen : Nat) : Seekable α :=
  { next_ind := 0, read_ind := -1, maxlen := maxlen, cache := [], it := it }

/-- Outcome of `_Seekable.__next__`: a value and the new state, or one of
the exceptional exits (`StopIteration` from the wrapped iterator,
`IndexError` from the deque, the explicit `AssertionError` branch).
Python raises each of these before any instance attribute is mutated,
so no state accompanies them. -/
inductive NextRes (α : Type) where
  | ok (t : α) (s : Seekable α)
  | stopIteration
  | indexError
  | assertError
  deriving Repr, DecidableEq

/-- The `appendleft` of `t` into the `maxlen`-bounded deque (a full deque
auto-evicts its rightmost/oldest element), followed by the
`if len(cache) > maxlen: cache.pop()` guard of `__next__` (kept for
faithfulness; it can never fire on a bounded deque). -/
def Seekable.push {α : Type} (maxlen : Nat) (t : α) (cache : List α) : List α :=
  if maxlen < ((t :: cache).take maxlen).length
  then ((t :: cache).take maxlen).dropLast
  else (t :: cache).take maxlen

/-- Method `_Seekable.__next__`. The cached branch reads
`_cache[_read_ind - _next_ind]`; the pull branch takes the next item of
the iterator, pushes it into the bounded deque and increments both
counters. -/
def Seekable.next {α : Type} (s : Seekable α) : NextRes α :=
  if s.next_ind ≤ s.read_ind then
    match s.cache.get? (s.read_ind - s.next_ind).toNat with
    | some t => .ok t { s with next_ind := s.next_ind + 1 }
    | none => .indexError
  else if s.next_ind = s.read_ind + 1 then
    match s.it with
    | [] => .stopIteration
    | t :: rest =>
        .ok t { s with cache := Seekable.push s.maxlen t s.cache, it := rest,
                       next_ind := s.next_ind + 1, read_ind := s.read_ind + 1 }
  else
    .assertError

/-- Outcome of `_Seekable.seek`: the returned bool with the new state, or
a propagated exception from the internal `next(self)` calls. -/
inductive SeekRes (α : Type) where
  | ok (b : Bool) (s : Seekable α)
  | stopIteration
  | indexError
  | assertError
  deriving Repr, DecidableEq

/-- The tail of `seek` after its loop: check whether the target is still
inside the retained cache window; on success set `_next_ind := ind` and
return `True`, otherwise return `False` leaving the state untouched. -/
def Seekable.seekCheck {α : Type} (ind : Int) (s : Seekable α) : SeekRes α :=
  if s.read_ind - (s.cache.length : Int) < ind then
    .ok true { s with next_ind := ind }
  else
    .ok false s

/-- The `while ind > self._next_ind: next(self)` loop of `seek`, followed
by the cache-window check. Fuel counts the remaining loop iterations;
`Seekable.seek` passes exactly `(ind - next_ind).toNat`, which is exact
because every successful `__next__` increments `_next_ind` by one, so the
fuel-exhausted arm is unreachable (it conservatively reports
`assertError`). -/
def Seekable.seekAux {α : Type} (ind : Int) : Nat → Seekable α → SeekRes α
  | fuel + 1, s =>
    if s.next_ind < ind then
      match s.next with
      | .ok _ s' => Seekable.seekAux ind fuel s'
      | .stopIteration => .stopIteration
      | .indexError => .indexError
      | .assertError => .assertError
    else Seekable.seekCheck ind s
  | 0, s =>
    if s.next_ind < ind then .assertError
    else Seekable.seekCheck ind s

/-- Method `_Seekable.seek(ind)`. -/
def Seekable.seek {α : Type} (s : Seekable α) (ind : Int) : SeekRes α :=
  Seekable.seekAux ind (ind - s.next_ind).toNat s

/-- The documented invariant of `_Seekable`, plus the structural fact
`len(_cache) ≤ _maxlen` (maintained by the bounded deque) that makes it
inductive. -/
def Seekable.Inv {α : Type} (s : Seekable α) : Prop :=
  s.read_ind - (s.cache.length : Int) < s.next_ind ∧
    s.next_ind ≤ s.read_ind + 1 ∧ s.cache.length ≤ s.maxlen

instance {α : Type} (s : Seekable α) : Decidable s.Inv := by
  unfold Seekable.Inv; infer_instance

/-- An operation of the randomized-sequence model: one `__next__` call or
one `seek(ind)` call. -/
inductive Op where
  | adv : Op
  | seek (ind : Int) : Op
  deriving Repr, DecidableEq

/-- Run a sequence of operations from a state; `none` as soon as any
call raises (`StopIteration`, `IndexError` or `AssertionError`). -/
def Seekable.run {α : Type} : List Op → Seekable α → Option (Seekable α)
  | [], s => some s
  | Op.adv :: ops, s =>
      match s.next with
      | .ok _ s' => Seekable.run ops s'
      | _ => none
  | Op.seek ind :: ops, s =>
      match s.seek ind with
      | .ok _ s' => Seekable.run ops s'
      | _ => none

/-- The invariant of the `_Seekable` docstring, exactly as documented:
`(read_ind - len(cache)) < next_ind <= read_ind + 1`. -/
def Seekable.ClaimInv {α : Type} (s : Seekable α) : Prop :=
  s.read_ind - (s.cache.length : Int) < s.next_ind ∧ s.next_ind ≤ s.read_ind + 1

/-- What claim C5 states `__next__` does, as a predicate on a buffer
state: in the cached regime it returns the cached item at offset
`read_ind - next_ind` incrementing only `next_ind`; in the pull regime
it takes the next iterator item, appendlefts it (evicting the oldest
item exactly when the cache is at capacity) and increments both
counters. -/
def Seekable.NextSpec {α : Type} (s : Seekable α) : Prop :=
  (s.next_ind ≤ s.read_ind →
    ∃ t, s.cache.get? (s.read_ind - s.next_ind).toNat = some t ∧
      s.next = NextRes.ok t { s with next_ind := s.next_ind + 1 }) ∧
  (s.next_ind = s.read_ind + 1 →
    ∀ t rest, s.it = t :: rest →
      (s.cache.length < s.maxlen →
        s.next = NextRes.ok t
          { s with cache := t :: s.cache, it := rest,
                   next_ind := s.next_ind + 1, read_ind := s.read_ind + 1 }) ∧
      (s.cache.length = s.maxlen →
        s.next = NextRes.ok t
          { s with cache := (t :: s.cache).dropLast, it := rest,
                   next_ind := s.next_ind + 1, read_ind := s.read_ind + 1 }))

/-- What claim C2 (amended) states `seek` does for a target that is at
most `next_ind`: success exactly when the target is still inside the
retained cache window `[read_ind - len(cache) + 1, next_ind]`, setting
`next_ind := target`; failure returns `False` with the state unchanged. -/
def Seekable.SeekSpec {α : Type} (s : Seekable α) (ind : Int) : Prop :=
  (s.read_ind - (s.cache.length : Int) + 1 ≤ ind →
     s.seek ind = SeekRes.ok true { s with next_ind := ind }) ∧
  (ind ≤ s.read_ind - (s.cache.length : Int) →
     s.seek ind = SeekRes.ok false s)

/-- Whether a `seek` call returned `True`. -/
def SeekRes.returnsTrue {α : Type} : SeekRes α → Bool
  | .ok true _ => true
  | _ => false

/-! ## `PcapMultiPacketReader` (pcap_multi_packet_reader.py)

The native pcap reader is modelled as the list of packets it still has
to deliver; `packet.validate(metadata, pf)` (an external decoder call)
is modelled as a field of the packet recording its outcome. -/

/-- Outcome of `Packet.validate`: `None` (good), or one of the
`PacketValidationFailure` values the loop inspects. -/
inductive ValRes where
  | good
  | packetSize
  | idFail
  deriving Repr, DecidableEq

/-- A captured UDP packet as seen by the `__iter__` loop: its
destination port, an abstract payload, and the validation outcome its
bytes would produce against the configured metadata. -/
structure RawPacket where
  dst_port : Nat
  payload : Nat
  valRes : ValRes
  deriving Repr, DecidableEq

/-- The two error counters `_size_error_count` and `_id_error_count`. -/
structure IterCounts where
  size_error_count : Nat
  id_error_count : Nat
  deriving Repr, DecidableEq

/-- One pass of the `__iter__` loop body over a packet already read from
the pcap: port filtering (`dst_port not in self._port_info` →
`continue`), then validation: a `PACKET_SIZE` failure increments
`_size_error_count` and drops the packet unconditionally; an `ID`
failure increments `_id_error_count` and drops the packet unless
`soft_id_check` is set, in which case it is yielded un-validated.
`ports` is `_port_info` as a port-to-sensor-index association. -/
def iterStep (soft : Bool) (ports : List (Nat × Nat)) (c : IterCounts)
    (p : RawPacket) : IterCounts × Option (Nat × RawPacket) :=
  match List.lookup p.dst_port ports with
  | none => (c, none)
  | some idx =>
    match p.valRes with
    | ValRes.packetSize =>
        ({ c with size_error_count := c.size_error_count + 1 }, none)
    | ValRes.idFail =>
        if soft then
          ({ c with id_error_count := c.id_error_count + 1 }, some (idx, p))
        else
          ({ c with id_error_count := c.id_error_count + 1 }, none)
    | ValRes.good => (c, some (idx, p))

/-- The whole `__iter__` loop over the remaining pcap packets: final
counters plus the `(idx, packet)` pairs yielded, in order. Validation
failures never escape as exceptions: the function is total and reports
them only through the counters. -/
def runIter (soft : Bool) (ports : List (Nat × Nat)) :
    List RawPacket → IterCounts → IterCounts × List (Nat × RawPacket)
  | [], c => (c, [])
  | p :: ps, c =>
      match iterStep soft ports c p with
      | (c', none) => runIter soft ports ps c'
      | (c', some out) =>
          let r := runIter soft ports ps c'
          (r.1, out :: r.2)

/-- The packet yielded for `p`, if any: the rule applied by `iterStep`
to a single packet, written as a direct function of the packet. -/
def yieldRule (soft : Bool) (ports : List (Nat × Nat)) (p : RawPacket) :
    Option (Nat × RawPacket) :=
  match List.lookup p.dst_port ports, p.valRes with
  | some idx, ValRes.good => some (idx, p)
  | some idx, ValRes.idFail => if soft then some (idx, p) else none
  | _, _ => none

/-- Does `p` hit a port of interest and fail validation with the given
failure kind? -/
def countsAs (ports : List (Nat × Nat)) (v : ValRes) (p : RawPacket) : Bool :=
  (List.lookup p.dst_port ports).isSome && p.valRes == v

/-- The guarded nullable `_reader` handle: `some` of the packets the
native reader still has to deliver, or `none` after `close()`. -/
structure PcapSource where
  reader : Option (List RawPacket)
  deriving Repr, DecidableEq

/-- Result of the head of one `__iter__` loop iteration (lines guarded
by `self._lock`): `ended` when the loop breaks (closed handle or
`next_packet()` false), or the packet read together with the source
state after the read. -/
inductive PullRes where
  | ended
  | packet (p : RawPacket) (s : PcapSource)
  deriving Repr, DecidableEq

/-- The guard `if not (self._reader and self._reader.next_packet()): break` —
a `None` handle (observed after `close()`) or an exhausted reader ends
the stream; otherwise the next packet is read. -/
def PcapSource.pullNext (s : PcapSource) : PullRes :=
  match s.reader with
  | none => PullRes.ended
  | some [] => PullRes.ended
  | some (p :: rest) => PullRes.packet p ⟨some rest⟩

/-- Method `close()`: set the guarded handle to `None`. -/
def PcapSource.close (s : PcapSource) : PcapSource :=
  { s with reader := none }

/-- The check at the top of `__iter__` (before the loop): starting an
iteration on a closed source raises `ValueError`. -/
def PcapSource.iterStart (s : PcapSource) : Except String Unit :=
  match s.reader with
  | none => Except.error "I/O operation on closed packet source"
  | some _ => Except.ok ()

/-! ### `__init__` port assignment (C8)

`_guess_ports` and the metadata parser are external; a sensor's
metadata is modelled by its two declared ports and the list of
`(lidar, imu)` port pairs `_guess_ports(stats, meta_info)` returned
for it. -/

/-- Declared ports of one sensor's metadata, together with the result
of `_guess_ports` for it. -/
structure MetaPorts where
  udp_port_lidar : Option Nat
  udp_port_imu : Option Nat
  guesses : List (Nat × Nat)
  deriving Repr, DecidableEq

/-- Python `x or g` on an optional port: a `None` or `0` port (both
falsy) is replaced by the guess. Only evaluated under the
`if len(guesses) > 0:` guard. -/
def orElsePy (x : Option Nat) (g : Option Nat) : Option Nat :=
  match x with
  | some v => if v = 0 then g else some v
  | none => g

/-- Port `udp_port_lidar` after the guessing step: the substitution
`udp_port_lidar or lidar_guess` runs only when `_guess_ports` returned
at least one guess (`if len(guesses) > 0:`), with
`lidar_guess, imu_guess = guesses[0]`; otherwise the declared value
(even `0`) is kept as is. -/
def MetaPorts.effLidar (m : MetaPorts) : Option Nat :=
  match m.guesses with
  | [] => m.udp_port_lidar
  | (lidar_guess, _) :: _ => orElsePy m.udp_port_lidar (some lidar_guess)

/-- Port `udp_port_imu` after the guessing step, under the same
`if len(guesses) > 0:` guard as the lidar port. -/
def MetaPorts.effImu (m : MetaPorts) : Option Nat :=
  match m.guesses with
  | [] => m.udp_port_imu
  | (_, imu_guess) :: _ => orElsePy m.udp_port_imu (some imu_guess)

/-- The test `packet_port in self._port_info`: `None` is never a key of the
dict, so the membership test is false for it. -/
def portInDict (info : List (Nat × Nat)) : Option Nat → Bool
  | none => false
  | some p => (List.lookup p info).isSome

/-- The body of the inner `for packet_port, packet_ctor in
port_to_packet:` loop: collision check first, then the missing-port
check, then insertion into `_port_info` (recording the sensor index). -/
def registerPort (info : List (Nat × Nat)) (idx : Nat) (pp : Option Nat) :
    Except String (List (Nat × Nat)) :=
  if portInDict info pp then
    Except.error "Port collision"
  else
    match pp with
    | none => Except.error "Metadata was missing port numbers"
    | some p => Except.ok ((p, idx) :: info)

/-- Register the lidar port then the imu port of sensor `idx`. -/
def registerMeta (info : List (Nat × Nat)) (idx : Nat) (m : MetaPorts) :
    Except String (List (Nat × Nat)) :=
  match registerPort info idx m.effLidar with
  | Except.error e => Except.error e
  | Except.ok info1 => registerPort info1 idx m.effImu

/-- The outer `for idx in range(0, len(self._metadata))` loop. -/
def buildPortInfoAux (info : List (Nat × Nat)) (idx : Nat) :
    List MetaPorts → Except String (List (Nat × Nat))
  | [] => Except.ok info
  | m :: ms =>
      match registerMeta info idx m with
      | Except.error e => Except.error e
      | Except.ok info1 => buildPortInfoAux info1 (idx + 1) ms

/-- Dict `_port_info` as built by `__init__`, or the `RuntimeError` it
raises. -/
def buildPortInfo (metas : List MetaPorts) : Except String (List (Nat × Nat)) :=
  buildPortInfoAux [] 0 metas

/-- The tail of `__init__`: the native reader (and with it the packet
source) is only constructed after the port loop has succeeded. -/
def initSource (metas : List MetaPorts) (pcapPackets : List RawPacket) :
    Except String PcapSource :=
  match buildPortInfo metas with
  | Except.error e => Except.error e
  | Except.ok _ => Except.ok ⟨some pcapPackets⟩

/-- The per-sensor effective ports, flattened in registration order
(lidar then imu for each sensor). -/
def effectivePorts (metas : List MetaPorts) : List (Option Nat) :=
  (metas.map (fun m => [m.effLidar, m.effImu])).flatten

/-- Did `__init__` succeed in building a packet source? -/
def initSucceeds (metas : List MetaPorts) (pcapPackets : List RawPacket) : Bool :=
  match initSource metas pcapPackets with
  | Except.ok _ => true
  | Except.error _ => false

/-! ## Indexed multi-scan sources (`osf/multi.py`, `pcap_scan_source.py`)

`__getitem__` (the integer and slice branches are textually the same in
`OsfScanSource` and `PcapScanSource`), `__len__` and `scans_num`.  The
underlying fetch — seek to the index offset of the resolved ordinal and
run the batching/collation pipeline for one FrameSet — goes through the
native reader and the collation module and is modelled as indexing into
the list of FrameSets the index addresses. -/

/-- An indexed multi-scan source over FrameSets of type `α`:
the `index` flag, the FrameSets its index addresses (empty when not
indexed), and the data backing `scans_num`. -/
structure ScanSource (α : Type) where
  indexed : Bool
  framesets : List α
  sensors_count : Nat
  index_frame_counts : List Nat
  deriving Repr, DecidableEq

/-- Errors of `__getitem__`: the `RuntimeError` for non-indexed sources
and `IndexError` for out-of-range integer keys. -/
inductive GetError where
  | notIndexed
  | outOfRange
  deriving Repr, DecidableEq

/-- Method `PcapScanSource.__len__`:
`len(self._frame_offset) if self.is_indexed else 0`. -/
def ScanSource.lenScans {α : Type} (s : ScanSource α) : Nat :=
  if s.indexed then s.framesets.length else 0

/-- Property `PcapScanSource.scans_num`: `[0] * sensors_count` when not indexed,
else the per-sensor frame counts of the pcap index. -/
def ScanSource.scans_num {α : Type} (s : ScanSource α) : List Nat :=
  if ¬ s.indexed then List.replicate s.sensors_count 0
  else s.index_frame_counts

/-- The negative-key resolution step of the integer branch:
`if key < 0: key += L`. -/
def resolveKey (key L : Int) : Int :=
  if key < 0 then key + L else key

/-- The integer branch of `__getitem__`: refuse non-indexed sources,
resolve a negative key against `len(self)`, bounds-check
(`key < 0 or key >= L` → `IndexError`), then fetch the FrameSet at the
resolved ordinal. -/
def ScanSource.getInt {α : Type} (s : ScanSource α) (key : Int) :
    Except GetError α :=
  if ¬ s.indexed then Except.error GetError.notIndexed
  else
    let L : Int := (s.lenScans : Int)
    let k := resolveKey key L
    if k < 0 ∨ L ≤ k then Except.error GetError.outOfRange
    else
      match s.framesets.get? k.toNat with
      | some v => Except.ok v
      | none => Except.error GetError.outOfRange

/-- A Python `slice(start, stop, step)` literal. -/
structure PySlice where
  start : Option Int
  stop : Option Int
  step : Option Int
  deriving Repr, DecidableEq

/-- A normalized slice. -/
structure NormSlice where
  start : Int
  stop : Int
  step : Int
  deriving Repr, DecidableEq

/-- Modelled from the spec: `ForwardSlicer.normalize`
(`ouster/sdkx/forward_slicer.py`, not among the analysed sources) puts
a slice into normal form the way Python's `slice.indices` does for a
positive step: missing start/stop default to the ends, negative bounds
are resolved relative to the length, and both are clamped into
`[0, L]`. -/
def normalizeSlice (sl : PySlice) (L : Int) : NormSlice :=
  { start := max 0 (min (resolveKey (sl.start.getD 0) L) L),
    stop := max 0 (min (resolveKey (sl.stop.getD L) L) L),
    step := sl.step.getD 1 }

/-- The slice branch of `__getitem__`: refuse non-indexed sources,
normalize, and return `[]` as soon as `count = stop - start <= 0`;
otherwise fetch the `count` FrameSets from the start ordinal (the
positive-count fetch, which runs through `ForwardSlicer.slice` and the
collation pipeline, is modelled as the corresponding sublist). -/
def ScanSource.getSlice {α : Type} (s : ScanSource α) (sl : PySlice) :
    Except GetError (List α) :=
  if ¬ s.indexed then Except.error GetError.notIndexed
  else
    let L : Int := (s.lenScans : Int)
    let k := normalizeSlice sl L
    let count := k.stop - k.start
    if count ≤ 0 then Except.ok []
    else Except.ok (((s.framesets.drop k.start.toNat).take count.toNat))

/-- Method `__iter__` of the scan sources: forward iteration over the collated
stream, permitted whether or not the source is indexed (there is no
`is_indexed` guard on this path). -/
def ScanSource.iterScans {α : Type} (s : ScanSource α) :
    Except GetError (List α) :=
  Except.ok s.framesets

theorem Seekable.push_eq_take {α : Type} (maxlen : Nat) (t : α) (cache : List α) :
    Seekable.push maxlen t cache = (t :: cache).take maxlen := by
  have h : ¬ maxlen < ((t :: cache).take maxlen).length := by
    simp only [List.length_take, List.length_cons]
    omega
  unfold Seekable.push
  rw [if_neg h]

theorem Seekable.next_ok_inv {α : Type} {s s' : Seekable α} {t : α}
    (hInv : s.Inv) (h : s.next = NextRes.ok t s') : s'.Inv := by
  obtain ⟨h1, h2, h3⟩ := hInv
  unfold Seekable.next at h
  split at h
  · rename_i hle
    split at h
    · cases h
      refine ⟨by simpa using by omega, by simp; omega, by simpa using h3⟩
    · cases h
  · split at h
    · rename_i hgt heq
      cases hit : s.it with
      | nil => rw [hit] at h; cases h
      | cons a rest =>
          rw [hit] at h
          cases h
          refine ⟨?_, ?_, ?_⟩ <;>
            simp [Seekable.push_eq_take, List.length_take] <;> omega
    · cases h

theorem Seekable.next_ok_next_ind {α : Type} {s s' : Seekable α} {t : α}
    (h : s.next = NextRes.ok t s') : s'.next_ind = s.next_ind + 1 := by
  unfold Seekable.next at h
  split at h
  · split at h
    · cases h; rfl
    · cases h
  · split at h
    · cases hit : s.it with
      | nil => rw [hit] at h; cases h
      | cons a rest => rw [hit] at h; cases h; rfl
    · cases h

/-- Under the invariant, `__next__` either delivers a value or propagates
`StopIteration` from the wrapped iterator: the `IndexError` and
`AssertionError` exits are never taken. -/
theorem Seekable.next_classify {α : Type} {s : Seekable α} (hInv : s.Inv) :
    (∃ t s', s.next = NextRes.ok t s') ∨ s.next = NextRes.stopIteration := by
  obtain ⟨h1, h2, h3⟩ := hInv
  unfold Seekable.next
  split
  · rename_i hle
    have hlen : (s.read_ind - s.next_ind).toNat < s.cache.length := by omega
    rw [List.get?_eq_get hlen]
    exact Or.inl ⟨_, _, rfl⟩
  · rename_i hgt
    have heq : s.next_ind = s.read_ind + 1 := by omega
    rw [if_pos heq]
    cases s.it with
    | nil => exact Or.inr rfl
    | cons a rest => exact Or.inl ⟨_, _, rfl⟩

theorem Seekable.seekCheck_ok_inv {α : Type} {s s' : Seekable α} {b : Bool}
    {ind : Int} (hInv : s.Inv) (hle : ind ≤ s.next_ind)
    (h : Seekable.seekCheck ind s = SeekRes.ok b s') : s'.Inv := by
  obtain ⟨h1, h2, h3⟩ := hInv
  unfold Seekable.seekCheck at h
  split at h
  · cases h
    exact ⟨by simpa using by omega, by simp; omega, h3⟩
  · cases h
    exact ⟨h1, h2, h3⟩

theorem Seekable.seekAux_ok_inv {α : Type} (ind : Int) :
    ∀ (fuel : Nat) (s s' : Seekable α) (b : Bool), s.Inv →
      Seekable.seekAux ind fuel s = SeekRes.ok b s' → s'.Inv := by
  intro fuel
  induction fuel with
  | zero =>
      intro s s' b hInv h
      unfold Seekable.seekAux at h
      split at h
      · cases h
      · rename_i hnlt
        exact Seekable.seekCheck_ok_inv hInv (by omega) h
  | succ fuel ih =>
      intro s s' b hInv h
      unfold Seekable.seekAux at h
      split at h
      · rename_i hlt
        cases hnext : s.next with
        | ok t s1 =>
            rw [hnext] at h
            exact ih s1 s' b (Seekable.next_ok_inv hInv hnext) h
        | stopIteration => rw [hnext] at h; cases h
        | indexError => rw [hnext] at h; cases h
        | assertError => rw [hnext] at h; cases h
      · rename_i hnlt
        exact Seekable.seekCheck_ok_inv hInv (by omega) h

theorem Seekable.seek_ok_inv {α : Type} {s s' : Seekable α} {b : Bool}
    {ind : Int} (hInv : s.Inv) (h : s.seek ind = SeekRes.ok b s') : s'.Inv :=
  Seekable.seekAux_ok_inv ind _ s s' b hInv h

theorem Seekable.init_inv {α : Type} (it : List α) (maxlen : Nat) :
    (Seekable.init it maxlen).Inv := by
  refine ⟨?_, ?_, ?_⟩ <;> simp [Seekable.init]

theorem Seekable.run_inv {α : Type} :
    ∀ (ops : List Op) (s s' : Seekable α), s.Inv →
      Seekable.run ops s = some s' → s'.Inv := by
  intro ops
  induction ops with
  | nil =>
      intro s s' h hr
      unfold Seekable.run at hr
      cases hr
      exact h
  | cons op ops ih =>
      intro s s' h hr
      cases op with
      | adv =>
          unfold Seekable.run at hr
          cases hnext : s.next with
          | ok t s1 =>
              rw [hnext] at hr
              exact ih s1 s' (Seekable.next_ok_inv h hnext) hr
          | stopIteration => rw [hnext] at hr; cases hr
          | indexError => rw [hnext] at hr; cases hr
          | assertError => rw [hnext] at hr; cases hr
      | seek ind =>
          unfold Seekable.run at hr
          cases hseek : s.seek ind with
          | ok b s1 =>
              rw [hseek] at hr
              exact ih s1 s' (Seekable.seek_ok_inv h hseek) hr
          | stopIteration => rw [hseek] at hr; cases hr
          | indexError => rw [hseek] at hr; cases hr
          | assertError => rw [hseek] at hr; cases hr

theorem Seekable.seekAux_no_assert {α : Type} (ind : Int) :
    ∀ (fuel : Nat) (s : Seekable α), s.Inv → fuel = (ind - s.next_ind).toNat →
      Seekable.seekAux ind fuel s ≠ SeekRes.assertError := by
  intro fuel
  induction fuel with
  | zero =>
      intro s hInv hfuel
      unfold Seekable.seekAux
      rw [if_neg (by omega : ¬ s.next_ind < ind)]
      unfold Seekable.seekCheck
      split <;> simp
  | succ fuel ih =>
      intro s hInv hfuel
      unfold Seekable.seekAux
      split
      · rcases Seekable.next_classify hInv with ⟨t, s1, hnext⟩ | hnext
        · rw [hnext]
          have h1 : s1.next_ind = s.next_ind + 1 := Seekable.next_ok_next_ind hnext
          exact ih s1 (Seekable.next_ok_inv hInv hnext) (by omega)
        · rw [hnext]; simp
      · unfold Seekable.seekCheck
        split <;> simp

theorem Seekable.seek_no_assert {α : Type} {s : Seekable α} (hInv : s.Inv)
    (ind : Int) : s.seek ind ≠ SeekRes.assertError :=
  Seekable.seekAux_no_assert ind _ s hInv rfl

/-- C1: for every `_Seekable` buffer freshly constructed over any
iterator and every finite sequence of `__next__` and `seek` calls that
do not raise, the documented invariant
`(read_ind - len(cache)) < next_ind <= read_ind + 1` holds after each
call (every prefix of a non-raising sequence is itself a non-raising
sequence, so the state after each call is the final state of some
prefix and is covered). -/
theorem seekable_invariant_reachable {α : Type} (it : List α) (maxlen : Nat)
    (ops : List Op) (s : Seekable α)
    (h : Seekable.run ops (Seekable.init it maxlen) = some s) :
    Seekable.ClaimInv s := by
  obtain ⟨h1, h2, h3⟩ := Seekable.run_inv ops _ s (Seekable.init_inv it maxlen) h
  exact ⟨h1, h2⟩

theorem seekable_invariant_reachable_witness :
    Seekable.run [Op.adv, Op.seek 0] (Seekable.init [1, 2, 3] 50)
        = some { next_ind := 0, read_ind := 0, maxlen := 50,
                 cache := [1], it := [2, 3] } ∧
      Seekable.ClaimInv
        ({ next_ind := 0, read_ind := 0, maxlen := 50,
           cache := [1], it := [2, 3] } : Seekable Nat) :=
  ⟨by decide,
   seekable_invariant_reachable [1, 2, 3] 50 [Op.adv, Op.seek 0] _ (by decide)⟩

/-- C10: on every buffer reachable from a fresh construction by
non-raising `__next__`/`seek` calls, `next_ind ≤ read_ind + 1` holds at
entry to `__next__`, so the `AssertionError` branch of `__next__` is
unreachable — both for a direct call and for the calls `seek` makes
internally. -/
theorem seekable_assert_unreachable {α : Type} (it : List α) (maxlen : Nat)
    (ops : List Op) (s : Seekable α)
    (h : Seekable.run ops (Seekable.init it maxlen) = some s) :
    s.next_ind ≤ s.read_ind + 1 ∧ s.next ≠ NextRes.assertError ∧
      ∀ ind : Int, s.seek ind ≠ SeekRes.assertError := by
  obtain ⟨h1, h2, h3⟩ := Seekable.run_inv ops _ s (Seekable.init_inv it maxlen) h
  refine ⟨h2, ?_, fun ind => Seekable.seek_no_assert ⟨h1, h2, h3⟩ ind⟩
  rcases Seekable.next_classify ⟨h1, h2, h3⟩ with ⟨t, s1, hnext⟩ | hnext <;>
    rw [hnext] <;> simp

theorem seekable_assert_unreachable_witness :
    ({ next_ind := 1, read_ind := 0, maxlen := 50,
       cache := [1], it := [2] } : Seekable Nat).next ≠ NextRes.assertError ∧
      ({ next_ind := 1, read_ind := 0, maxlen := 50,
         cache := [1], it := [2] } : Seekable Nat).seek 5 ≠ SeekRes.assertError :=
  ⟨(seekable_assert_unreachable [1, 2] 50 [Op.adv] _ (by decide)).2.1,
   (seekable_assert_unreachable [1, 2] 50 [Op.adv] _ (by decide)).2.2 5⟩

/-- C5: on every buffer state satisfying the invariant, `__next__`
returns the cached item at offset `read_ind - next_ind` and increments
only `next_ind` when `next_ind ≤ read_ind`; otherwise
(`next_ind = read_ind + 1`) it pulls the next item from the underlying
iterator, pushes it to the cache (evicting the oldest item exactly when
the cache is at capacity `maxlen`), increments both counters, and
returns the new item. -/
theorem seekable_next_spec {α : Type} (s : Seekable α) (h : s.Inv) :
    s.NextSpec := by
  obtain ⟨h1, h2, h3⟩ := h
  constructor
  · intro hle
    have hlen : (s.read_ind - s.next_ind).toNat < s.cache.length := by omega
    refine ⟨s.cache.get ⟨_, hlen⟩, List.get?_eq_get hlen, ?_⟩
    unfold Seekable.next
    rw [if_pos hle, List.get?_eq_get hlen]
  · intro heq t rest hit
    have hnle : ¬ s.next_ind ≤ s.read_ind := by omega
    constructor
    · intro hlt
      have hp : Seekable.push s.maxlen t s.cache = t :: s.cache := by
        rw [Seekable.push_eq_take]
        exact List.take_of_length_le (by simp; omega)
      unfold Seekable.next
      rw [if_neg hnle, if_pos heq, hit]
      simp [hp]
    · intro heql
      have hp : Seekable.push s.maxlen t s.cache = (t :: s.cache).dropLast := by
        rw [Seekable.push_eq_take, List.dropLast_eq_take]
        congr 1
        simp [List.length_cons]
        omega
      unfold Seekable.next
      rw [if_neg hnle, if_pos heq, hit]
      simp [hp]

theorem seekable_next_spec_witness :
    ({ next_ind := 0, read_ind := 0, maxlen := 50,
       cache := [5], it := [7] } : Seekable Nat).Inv ∧
      ({ next_ind := 0, read_ind := 0, maxlen := 50,
         cache := [5], it := [7] } : Seekable Nat).NextSpec :=
  ⟨by decide,
   seekable_next_spec
     ({ next_ind := 0, read_ind := 0, maxlen := 50,
        cache := [5], it := [7] } : Seekable Nat) (by decide)⟩

/-- C2 counterexample: on the fresh buffer over the iterator `[0, 1, 2]`
the call `seek(2)` returns `True`, yet at call time the target `2` does
not lie in `[read_ind - len(cache) + 1, next_ind] = [0, 0]` — the
claimed equivalence fails for targets beyond `next_ind`, because `seek`
first advances the underlying iterator and then succeeds. -/
theorem seek_window_iff_counterexample :
    ¬ ((((Seekable.init [0, 1, 2] 50 : Seekable Nat).seek 2).returnsTrue = true) ↔
        ((Seekable.init [0, 1, 2] 50 : Seekable Nat).read_ind
            - (((Seekable.init [0, 1, 2] 50 : Seekable Nat).cache.length : Int)) + 1 ≤ 2 ∧
          (2 : Int) ≤ (Seekable.init [0, 1, 2] 50 : Seekable Nat).next_ind)) := by
  decide

/-- C2 (amended): for every buffer state satisfying the invariant and
every target `ind ≤ next_ind` at call time, `seek(ind)` returns `True`
iff `ind` lies within `[read_ind - len(cache) + 1, next_ind]`, setting
`next_ind := ind` on success; when it returns `False` the buffer state
is unchanged. -/
theorem seek_within_window_spec {α : Type} (s : Seekable α) (ind : Int)
    (hInv : s.Inv) (hle : ind ≤ s.next_ind) : s.SeekSpec ind := by
  have hfuel : (ind - s.next_ind).toNat = 0 := by omega
  constructor
  · intro hwin
    unfold Seekable.seek
    rw [hfuel]
    unfold Seekable.seekAux
    rw [if_neg (by omega : ¬ s.next_ind < ind)]
    unfold Seekable.seekCheck
    rw [if_pos (by omega)]
  · intro hout
    unfold Seekable.seek
    rw [hfuel]
    unfold Seekable.seekAux
    rw [if_neg (by omega : ¬ s.next_ind < ind)]
    unfold Seekable.seekCheck
    rw [if_neg (by omega)]

theorem seek_within_window_spec_witness :
    ({ next_ind := 2, read_ind := 1, maxlen := 50,
       cache := [1, 0], it := [2] } : Seekable Nat).Inv ∧
      (1 : Int) ≤ ({ next_ind := 2, read_ind := 1, maxlen := 50,
                     cache := [1, 0], it := [2] } : Seekable Nat).next_ind ∧
      ({ next_ind := 2, read_ind := 1, maxlen := 50,
         cache := [1, 0], it := [2] } : Seekable Nat).SeekSpec 1 :=
  ⟨by decide, by decide,
   seek_within_window_spec
     ({ next_ind := 2, read_ind := 1, maxlen := 50,
        cache := [1, 0], it := [2] } : Seekable Nat) 1 (by decide) (by decide)⟩

theorem runIter_counts (soft : Bool) (ports : List (Nat × Nat)) :
    ∀ (pkts : List RawPacket) (c : IterCounts),
      (runIter soft ports pkts c).1 =
        ⟨c.size_error_count + pkts.countP (countsAs ports ValRes.packetSize),
         c.id_error_count + pkts.countP (countsAs ports ValRes.idFail)⟩ := by
  intro pkts
  induction pkts with
  | nil => intro c; simp [runIter]
  | cons p ps ih =>
      intro c
      unfold runIter iterStep
      cases hl : List.lookup p.dst_port ports with
      | none =>
          simp [hl, ih, countsAs, List.countP_cons]
      | some idx =>
          cases hv : p.valRes with
          | good => simp [hl, hv, ih, countsAs, List.countP_cons]
          | packetSize =>
              simp [hl, hv, ih, countsAs, List.countP_cons]
              omega
          | idFail =>
              cases soft <;>
                · simp [hl, hv, ih, countsAs, List.countP_cons]
                  omega

theorem runIter_outputs (soft : Bool) (ports : List (Nat × Nat)) :
    ∀ (pkts : List RawPacket) (c : IterCounts),
      (runIter soft ports pkts c).2 = pkts.filterMap (yieldRule soft ports) := by
  intro pkts
  induction pkts with
  | nil => intro c; simp [runIter]
  | cons p ps ih =>
      intro c
      unfold runIter iterStep
      cases hl : List.lookup p.dst_port ports with
      | none => simp [hl, ih, yieldRule, List.filterMap_cons]
      | some idx =>
          cases hv : p.valRes with
          | good => simp [hl, hv, ih, yieldRule, List.filterMap_cons]
          | packetSize => simp [hl, hv, ih, yieldRule, List.filterMap_cons]
          | idFail =>
              cases soft <;> simp [hl, hv, ih, yieldRule, List.filterMap_cons]

/-- C3 counterexample: with `soft_id_check = True` (soft mode), a packet
on a configured port whose validation reports a size mismatch is NOT
passed through to the caller: the `__iter__` loop counts it in
`_size_error_count` and drops it (`continue` is unconditional on the
`PACKET_SIZE` path), so the output stream is empty — contradicting the
claim that in soft mode such a packet is passed through un-validated. -/
theorem soft_mode_size_error_counterexample :
    runIter true [(7502, 0)]
        [{ dst_port := 7502, payload := 0, valRes := ValRes.packetSize }] ⟨0, 0⟩
      = (⟨1, 0⟩, []) := by
  decide

/-- C3 (amended): every packet on a configured port whose validation
reports a size or id mismatch increments the corresponding error
counter (`_size_error_count` / `_id_error_count`); a size-mismatch
packet is dropped in both modes, an id-mismatch packet is dropped in
strict mode and passed through to the caller un-validated in soft mode;
validation failures are only ever reported through the counters —
`runIter` is total, so none is raised as an exception mid-stream. -/
theorem iter_validation_spec (soft : Bool) (ports : List (Nat × Nat))
    (pkts : List RawPacket) :
    (runIter soft ports pkts ⟨0, 0⟩).1.size_error_count
        = pkts.countP (countsAs ports ValRes.packetSize) ∧
    (runIter soft ports pkts ⟨0, 0⟩).1.id_error_count
        = pkts.countP (countsAs ports ValRes.idFail) ∧
    (runIter soft ports pkts ⟨0, 0⟩).2 = pkts.filterMap (yieldRule soft ports) := by
  refine ⟨?_, ?_, runIter_outputs soft ports pkts ⟨0, 0⟩⟩ <;>
    · rw [runIter_counts soft ports pkts ⟨0, 0⟩]
      simp

/-- C7: once `close()` has set the guarded `_reader` handle to `None`,
the next pull of the `__iter__` loop observes the closed handle and
breaks out of the loop — the stream ends cleanly (the only non-packet
outcome of a pull is `ended`; there is no error or fault outcome on
this path). -/
theorem pull_after_close_ends (s : PcapSource) :
    (s.close).reader = none ∧ (s.close).pullNext = PullRes.ended :=
  ⟨rfl, rfl⟩

theorem registerPort_ok {info : List (Nat × Nat)} {idx : Nat}
    {pp : Option Nat} {info2 : List (Nat × Nat)}
    (h : registerPort info idx pp = Except.ok info2) :
    ∃ p, pp = some p ∧ List.lookup p info = none ∧ info2 = (p, idx) :: info := by
  cases pp with
  | none => simp [registerPort, portInDict] at h
  | some p =>
      cases hlk : List.lookup p info with
      | some v => simp [registerPort, portInDict, hlk] at h
      | none =>
          simp [registerPort, portInDict, hlk] at h
          exact ⟨p, rfl, hlk, h.symm⟩

theorem lookup_none_cons {q k v : Nat} {l : List (Nat × Nat)}
    (h : List.lookup q ((k, v) :: l) = none) :
    q ≠ k ∧ List.lookup q l = none := by
  rw [List.lookup_cons] at h
  by_cases hqk : q = k
  · subst hqk
    simp at h
  · refine ⟨hqk, ?_⟩
    have hbeq : (q == k) = false := by simp [hqk]
    rw [hbeq] at h
    exact h

theorem lookup_cons_self {k v : Nat} {l : List (Nat × Nat)} :
    List.lookup k ((k, v) :: l) = some v := by
  simp [List.lookup]

theorem registerMeta_ok {info : List (Nat × Nat)} {idx : Nat}
    {m : MetaPorts} {info1 : List (Nat × Nat)}
    (h : registerMeta info idx m = Except.ok info1) :
    ∃ pl pi, m.effLidar = some pl ∧ m.effImu = some pi ∧
      List.lookup pl info = none ∧ pi ≠ pl ∧ List.lookup pi info = none ∧
      info1 = (pi, idx) :: (pl, idx) :: info := by
  unfold registerMeta at h
  cases hL : registerPort info idx m.effLidar with
  | error e => rw [hL] at h; cases h
  | ok infoL =>
      rw [hL] at h
      obtain ⟨pl, hpl, hlkl, hiL⟩ := registerPort_ok hL
      obtain ⟨pi, hpi, hlki, hiI⟩ := registerPort_ok h
      subst hiL
      obtain ⟨hne, hlki'⟩ := lookup_none_cons hlki
      exact ⟨pl, pi, hpl, hpi, hlkl, hne, hlki', hiI⟩

theorem effectivePorts_cons (m : MetaPorts) (ms : List MetaPorts) :
    effectivePorts (m :: ms) = m.effLidar :: m.effImu :: effectivePorts ms := by
  simp [effectivePorts]

theorem buildPortInfoAux_ok :
    ∀ (metas : List MetaPorts) (info info' : List (Nat × Nat)) (idx : Nat),
      buildPortInfoAux info idx metas = Except.ok info' →
      (∀ p ∈ effectivePorts metas, p ≠ none) ∧
        (effectivePorts metas).Nodup ∧
        (∀ q : Nat, some q ∈ effectivePorts metas →
          List.lookup q info = none) := by
  intro metas
  induction metas with
  | nil =>
      intro info info' idx h
      refine ⟨?_, ?_, ?_⟩ <;> simp [effectivePorts]
  | cons m ms ih =>
      intro info info' idx h
      unfold buildPortInfoAux at h
      cases hr : registerMeta info idx m with
      | error e => rw [hr] at h; cases h
      | ok info1 =>
          rw [hr] at h
          obtain ⟨hall, hnd, hlk⟩ := ih info1 info' (idx + 1) h
          obtain ⟨pl, pi, hpl, hpi, hlkl, hne, hlki, hinfo1⟩ := registerMeta_ok hr
          subst hinfo1
          rw [effectivePorts_cons, hpl, hpi]
          have hfacts : ∀ q : Nat, some q ∈ effectivePorts ms →
              q ≠ pi ∧ q ≠ pl ∧ List.lookup q info = none := by
            intro q hmem
            obtain ⟨h1, h2⟩ := lookup_none_cons (hlk q hmem)
            obtain ⟨h3, h4⟩ := lookup_none_cons h2
            exact ⟨h1, h3, h4⟩
          refine ⟨?_, ?_, ?_⟩
          · intro p hp
            rcases List.mem_cons.mp hp with rfl | hp
            · simp
            rcases List.mem_cons.mp hp with rfl | hp
            · simp
            · exact hall p hp
          · rw [List.nodup_cons, List.nodup_cons]
            refine ⟨?_, ?_, hnd⟩
            · intro hmem
              rcases List.mem_cons.mp hmem with heq | hmem
              · exact hne (Option.some.inj heq).symm
              · exact (hfacts pl hmem).2.1 rfl
            · intro hmem
              exact (hfacts pi hmem).1 rfl
          · intro q hmem
            rcases List.mem_cons.mp hmem with heq | hmem
            · obtain rfl := Option.some.inj heq
              exact hlkl
            rcases List.mem_cons.mp hmem with heq | hmem
            · obtain rfl := Option.some.inj heq
              exact hlki
            · exact (hfacts q hmem).2.2

/-- C8: if after port guessing two configured sensor streams (lidar or
imu) map to the same UDP port, or any sensor's metadata is left without
a port number, `__init__` raises a `RuntimeError` and no packet source
is created. -/
theorem init_port_error_spec (metas : List MetaPorts)
    (pcapPackets : List RawPacket)
    (h : ¬ (effectivePorts metas).Nodup ∨ none ∈ effectivePorts metas) :
    initSucceeds metas pcapPackets = false := by
  cases hb : buildPortInfo metas with
  | error e => simp [initSucceeds, initSource, hb]
  | ok info =>
      obtain ⟨hall, hnd, _⟩ := buildPortInfoAux_ok metas [] info 0 hb
      rcases h with h | h
      · exact absurd hnd h
      · exact absurd rfl (hall none h)

theorem init_port_error_spec_witness :
    (¬ (effectivePorts
          [{ udp_port_lidar := some 7502, udp_port_imu := some 7503,
             guesses := [] },
           { udp_port_lidar := some 7502, udp_port_imu := some 7504,
             guesses := [] }]).Nodup ∨
        none ∈ effectivePorts
          [{ udp_port_lidar := some 7502, udp_port_imu := some 7503,
             guesses := [] },
           { udp_port_lidar := some 7502, udp_port_imu := some 7504,
             guesses := [] }]) ∧
      initSucceeds
          [{ udp_port_lidar := some 7502, udp_port_imu := some 7503,
             guesses := [] },
           { udp_port_lidar := some 7502, udp_port_imu := some 7504,
             guesses := [] }] [] = false :=
  ⟨by decide,
   init_port_error_spec
     [{ udp_port_lidar := some 7502, udp_port_imu := some 7503,
        guesses := [] },
      { udp_port_lidar := some 7502, udp_port_imu := some 7504,
        guesses := [] }] [] (by decide)⟩

/-- Sanity check of the guessing guard: a metadata that declares
`udp_port_lidar = 0` while `_guess_ports` returned nothing keeps port
`0` (the `or`-substitution is skipped entirely when `guesses` is
empty), so `__init__` registers port `0` and succeeds — it does not
treat the falsy declared port as missing. -/
theorem init_declared_port_zero_succeeds :
    initSucceeds
        [{ udp_port_lidar := some 0, udp_port_imu := some 7503,
           guesses := [] }] [] = true := by
  decide

theorem getInt_eq_of_indexed {α : Type} (s : ScanSource α)
    (hidx : s.indexed = true) (key : Int) :
    s.getInt key =
      (if resolveKey key (s.lenScans : Int) < 0 ∨
          (s.lenScans : Int) ≤ resolveKey key (s.lenScans : Int)
       then Except.error GetError.outOfRange
       else
         match s.framesets.get? (resolveKey key (s.lenScans : Int)).toNat with
         | some v => Except.ok v
         | none => Except.error GetError.outOfRange) := by
  unfold ScanSource.getInt
  rw [hidx]
  simp

theorem lenScans_of_indexed {α : Type} (s : ScanSource α)
    (hidx : s.indexed = true) : s.lenScans = s.framesets.length := by
  simp [ScanSource.lenScans, hidx]

theorem getSlice_eq_of_indexed {α : Type} (s : ScanSource α)
    (hidx : s.indexed = true) (sl : PySlice) :
    s.getSlice sl =
      (if (normalizeSlice sl (s.lenScans : Int)).stop -
            (normalizeSlice sl (s.lenScans : Int)).start ≤ 0
       then Except.ok []
       else
         Except.ok
           ((s.framesets.drop (normalizeSlice sl (s.lenScans : Int)).start.toNat).take
             ((normalizeSlice sl (s.lenScans : Int)).stop -
               (normalizeSlice sl (s.lenScans : Int)).start).toNat)) := by
  unfold ScanSource.getSlice
  rw [hidx]
  simp

/-- C4: on every indexed multi-scan source of positive length `L`, the
integer branch of `__getitem__` resolves a negative key as `key + L`
and raises `IndexError` exactly when the resolved key falls outside
`[0, L)` (returning the FrameSet at the resolved ordinal otherwise); in
particular `get(-1)` returns the last FrameSet and `get(L)` raises; and
the slice branch returns `[]` for every slice whose normalized
`stop <= start`, in particular for `slice(2, 2)`. -/
theorem indexed_getitem_spec {α : Type} (s : ScanSource α)
    (hidx : s.indexed = true) (hL : 0 < s.framesets.length) :
    (∀ key : Int,
        resolveKey key (s.lenScans : Int) < 0 ∨
          (s.lenScans : Int) ≤ resolveKey key (s.lenScans : Int) →
        s.getInt key = Except.error GetError.outOfRange) ∧
    (∀ key : Int,
        0 ≤ resolveKey key (s.lenScans : Int) →
        resolveKey key (s.lenScans : Int) < (s.lenScans : Int) →
        ∃ hk : (resolveKey key (s.lenScans : Int)).toNat < s.framesets.length,
          s.getInt key = Except.ok (s.framesets.get ⟨_, hk⟩)) ∧
    (∃ l, s.framesets.getLast? = some l ∧ s.getInt (-1) = Except.ok l) ∧
    s.getInt (s.framesets.length : Int) = Except.error GetError.outOfRange ∧
    (∀ sl : PySlice,
        (normalizeSlice sl (s.lenScans : Int)).stop ≤
          (normalizeSlice sl (s.lenScans : Int)).start →
        s.getSlice sl = Except.ok []) ∧
    s.getSlice ⟨some 2, some 2, none⟩ = Except.ok [] := by
  have hlen := lenScans_of_indexed s hidx
  have herr : ∀ key : Int,
      resolveKey key (s.lenScans : Int) < 0 ∨
        (s.lenScans : Int) ≤ resolveKey key (s.lenScans : Int) →
      s.getInt key = Except.error GetError.outOfRange := by
    intro key hk
    rw [getInt_eq_of_indexed s hidx, if_pos hk]
  have hok : ∀ key : Int,
      0 ≤ resolveKey key (s.lenScans : Int) →
      resolveKey key (s.lenScans : Int) < (s.lenScans : Int) →
      ∃ hk : (resolveKey key (s.lenScans : Int)).toNat < s.framesets.length,
        s.getInt key = Except.ok (s.framesets.get ⟨_, hk⟩) := by
    intro key h0 h1
    have hk : (resolveKey key (s.lenScans : Int)).toNat < s.framesets.length := by
      omega
    refine ⟨hk, ?_⟩
    rw [getInt_eq_of_indexed s hidx, if_neg (by omega), List.get?_eq_get hk]
  have hslice : ∀ sl : PySlice,
      (normalizeSlice sl (s.lenScans : Int)).stop ≤
        (normalizeSlice sl (s.lenScans : Int)).start →
      s.getSlice sl = Except.ok [] := by
    intro sl hs
    rw [getSlice_eq_of_indexed s hidx sl, if_pos (by omega)]
  refine ⟨herr, hok, ?_, ?_, hslice, ?_⟩
  · have hidxeq : (resolveKey (-1) (s.lenScans : Int)).toNat
        = s.framesets.length - 1 := by
      unfold resolveKey
      rw [if_pos (by norm_num)]
      omega
    have h0 : (0 : Int) ≤ resolveKey (-1) (s.lenScans : Int) := by
      unfold resolveKey
      rw [if_pos (by norm_num)]
      omega
    have h1 : resolveKey (-1) (s.lenScans : Int) < (s.lenScans : Int) := by
      unfold resolveKey
      rw [if_pos (by norm_num)]
      omega
    obtain ⟨hk, hget⟩ := hok (-1) h0 h1
    refine ⟨s.framesets.get ⟨_, hk⟩, ?_, hget⟩
    rw [List.getLast?_eq_get?,
        List.get?_eq_get (show s.framesets.length - 1 < s.framesets.length by omega)]
    have hfin : (⟨s.framesets.length - 1, by omega⟩ : Fin s.framesets.length)
        = ⟨(resolveKey (-1) (s.lenScans : Int)).toNat, hk⟩ :=
      Fin.ext (by simp [hidxeq])
    rw [hfin]
  · apply herr
    right
    unfold resolveKey
    rw [if_neg (by omega)]
    omega
  · apply hslice
    simp [normalizeSlice, resolveKey]

theorem indexed_getitem_spec_witness :
    (⟨true, [10, 20, 30], 1, [3]⟩ : ScanSource Nat).indexed = true ∧
      0 < (⟨true, [10, 20, 30], 1, [3]⟩ : ScanSource Nat).framesets.length ∧
      (⟨true, [10, 20, 30], 1, [3]⟩ : ScanSource Nat).getInt
          ((⟨true, [10, 20, 30], 1, [3]⟩ : ScanSource Nat).framesets.length : Int)
        = Except.error GetError.outOfRange ∧
      (⟨true, [10, 20, 30], 1, [3]⟩ : ScanSource Nat).getSlice
          ⟨some 2, some 2, none⟩ = Except.ok [] :=
  ⟨rfl, by decide,
   (indexed_getitem_spec (⟨true, [10, 20, 30], 1, [3]⟩ : ScanSource Nat)
     rfl (by decide)).2.2.2.1,
   (indexed_getitem_spec (⟨true, [10, 20, 30], 1, [3]⟩ : ScanSource Nat)
     rfl (by decide)).2.2.2.2.2⟩

/-- C6: on a non-indexed multi-scan source, every integer-key and every
slice-key `__getitem__` is refused with the explicit `RuntimeError`
("can not invoke __getitem__ on non-indexed source"); the refusal is
raised before any seek or read of the underlying source (the outcome is
independent of the underlying FrameSets), while forward iteration
(`__iter__`, which carries no `is_indexed` guard) remains permitted. -/
theorem non_indexed_getitem_refused {α : Type} (fs fs' : List α)
    (n c : Nat) (cnts cnts' : List Nat) (key : Int) (sl : PySlice) :
    (⟨false, fs, n, cnts⟩ : ScanSource α).getInt key
        = Except.error GetError.notIndexed ∧
      (⟨false, fs, n, cnts⟩ : ScanSource α).getSlice sl
        = Except.error GetError.notIndexed ∧
      (⟨false, fs, n, cnts⟩ : ScanSource α).getInt key
        = (⟨false, fs', c, cnts'⟩ : ScanSource α).getInt key ∧
      (⟨false, fs, n, cnts⟩ : ScanSource α).iterScans = Except.ok fs := by
  refine ⟨?_, ?_, ?_, ?_⟩ <;>
    simp [ScanSource.getInt, ScanSource.getSlice, ScanSource.iterScans]

/-- C9: a non-indexed `PcapScanSource` reports `len(source) = 0` and
`scans_num = [0] * sensors_count` instead of raising an error; of its
accessors only `__getitem__` raises on a non-indexed source. -/
theorem non_indexed_len_scans_num {α : Type} (s : ScanSource α)
    (h : s.indexed = false) :
    s.lenScans = 0 ∧ s.scans_num = List.replicate s.sensors_count 0 ∧
      (∀ key : Int, s.getInt key = Except.error GetError.notIndexed) ∧
      (∀ sl : PySlice, s.getSlice sl = Except.error GetError.notIndexed) := by
  refine ⟨?_, ?_, ?_, ?_⟩ <;>
    simp [ScanSource.lenScans, ScanSource.scans_num, ScanSource.getInt,
          ScanSource.getSlice, h]

theorem non_indexed_len_scans_num_witness :
    (⟨false, [], 2, []⟩ : ScanSource Nat).indexed = false ∧
      (⟨false, [], 2, []⟩ : ScanSource Nat).lenScans = 0 ∧
      (⟨false, [], 2, []⟩ : ScanSource Nat).scans_num = List.replicate 2 0 ∧
      (⟨false, [], 2, []⟩ : ScanSource Nat).getInt 0
        = Except.error GetError.notIndexed :=
  ⟨rfl,
   (non_indexed_len_scans_num (⟨false, [], 2, []⟩ : ScanSource Nat) rfl).1,
   (non_indexed_len_scans_num (⟨false, [], 2, []⟩ : ScanSource Nat) rfl).2.1,
   (non_indexed_len_scans_num (⟨false, [], 2, []⟩ : ScanSource Nat) rfl).2.2.1 0⟩

end Ouster
